import Mathlib

/-!
Verification of the loan-approval application core: the decision engine
(decision_engine.py) and the submission ledger (app.py).

Modelling conventions:
* Python dict values are modelled by the inductive `Value`; a Python dict
  (the application object) by an association list `Dict`.
* Python floats and JSON numbers are modelled as exact rationals.
* Raising an exception is modelled by returning `none`.
* `datetime` instants are modelled as rational numbers of seconds; the
  `timedelta.days` attribute is the floor of the elapsed seconds divided
  by 86400, which matches CPython for the positive elapsed times that occur
  here.
* The rules and messages configuration files are data, not code; they are
  modelled as parameters (`Rules`, `Messages`, `ContactMessages`) whose
  shapes follow the access pattern of the source.
-/

namespace LoanApp

/-- A Python value as stored in an application dict. -/
inductive Value where
  | vnull
  | vint (n : ℤ)
  | vnum (q : ℚ)
  | vbool (b : Bool)
  | vstr (s : String)
deriving DecidableEq

/-- A Python dict with string keys, as an association list. -/
abbrev Dict := List (String × Value)

/-- Numeric coercion: the values Python would accept in a numeric
comparison, division or `:,.2f` format (bools coerce as 0 or 1);
`none` models a TypeError. -/
def Value.toQ? : Value → Option ℚ
  | .vint n => some (n : ℚ)
  | .vnum q => some q
  | .vbool b => some (if b then 1 else 0)
  | _ => none

/-- Python truthiness of a value, as used by `not has_bankruptcy`. -/
def Value.truthy : Value → Bool
  | .vnull => false
  | .vint n => decide (n ≠ 0)
  | .vnum q => decide (q ≠ 0)
  | .vbool b => b
  | .vstr s => decide (s ≠ "")

/-- Python `str.lower()` modelled character by character (kernel-computable,
unlike `String.toLower`, whose loop does not reduce). -/
def lowerStr (s : String) : String := ⟨s.data.map Char.toLower⟩

/-- One pass of `str.replace`: replace every non-overlapping occurrence of
`pat` left to right, with enough fuel to consume the whole list. -/
def replaceFuel (pat rep : List Char) : ℕ → List Char → List Char
  | _, [] => []
  | 0, l => l
  | fuel + 1, c :: rest =>
    if pat ≠ [] ∧ pat.isPrefixOf (c :: rest) then
      rep ++ replaceFuel pat rep fuel ((c :: rest).drop pat.length)
    else c :: replaceFuel pat rep fuel rest

/-- Python `str.replace(pat, rep)` for a non-empty pattern
(kernel-computable model of `String.replace`). -/
def strReplace (s pat rep : String) : String :=
  ⟨replaceFuel pat.data rep.data s.data.length s.data⟩

/-- The rules configuration (rules.json), flattened:
`compliance.required_fields`, `compliance.minimum_credit_score`,
`compliance.maximum_loan_amount`, `credit_score_brackets.pre_approved_min`,
`credit_score_brackets.conditional_min`, and `loan_to_income_ratio.max_ratio`
(here named `ratioMax`). -/
structure Rules where
  required_fields : List String
  minimum_credit_score : ℚ
  maximum_loan_amount : ℚ
  pre_approved_min : ℚ
  conditional_min : ℚ
  ratioMax : ℚ
deriving DecidableEq

/-- One entry of the messages `decisions` table. -/
structure Template where
  title : String
  message : String
  next_steps : String
deriving DecidableEq

/-- The messages configuration table `messages.decisions` (messages.json). -/
structure Messages where
  decisions : List (String × Template)
deriving DecidableEq

/-- The loan-to-income ratio: a rational, or `float(inf)` when
annual income is not positive. -/
inductive LTI where
  | fin (q : ℚ)
  | inf
deriving DecidableEq

/-- `x <= r` for a ratio `x` and a finite bound `r`
(infinity is never below a finite bound). -/
def LTI.leQ : LTI → ℚ → Bool
  | .fin q, r => decide (q ≤ r)
  | .inf, _ => false

/-- `x > r` for a ratio `x` and a finite bound `r`. -/
def LTI.gtQ : LTI → ℚ → Bool
  | .fin q, r => decide (r < q)
  | .inf, _ => true

/-- Python `round(q, 2)` on an exact rational: round to the nearest
multiple of 1/100. -/
def roundTo2 (q : ℚ) : ℚ := (round (q * 100) : ℚ) / 100

/-- `round(x, 2)` where `x` may be infinite (Python returns inf unchanged). -/
def LTI.round2 : LTI → LTI
  | .fin q => .fin (roundTo2 q)
  | .inf => .inf

/-- The two-digit fractional part of the `:,.2f` format. -/
def pad2 (n : ℕ) : String := (if n < 10 then "0" else "") ++ toString n

/-- Insert a comma after every three characters of a reversed digit list. -/
def commaRev : List Char → List Char
  | c1 :: c2 :: c3 :: c4 :: rest => c1 :: c2 :: c3 :: ',' :: commaRev (c4 :: rest)
  | l => l

/-- Insert thousands separators into a string of digits. -/
def commaGroup (s : String) : String :=
  String.mk (commaRev s.data.reverse).reverse

/-- The Python format `f-string` fragment `loan_amount:,.2f`: the amount with
thousands separators and exactly two decimal places (the source prepends
the dollar sign separately). -/
def formatCurrency (q : ℚ) : String :=
  let cents : ℤ := round (q * 100)
  let sign := if cents < 0 then "-" else ""
  sign ++ commaGroup (toString (cents.natAbs / 100)) ++ "." ++ pad2 (cents.natAbs % 100)

/-- `field in application and application[field] is not None`. -/
def hasField (app : Dict) (f : String) : Bool :=
  match app.lookup f with
  | none => false
  | some .vnull => false
  | some _ => true

/-- `_check_compliance` (decision_engine.py lines 41-60), reduced to its
validity bit. `some false` is a compliance failure, `some true` a pass and
`none` a TypeError in one of the two numeric comparisons. The numeric
checks read `application.get(field, 0)`, so an absent field compares as 0. -/
def check_compliance (rules : Rules) (app : Dict) : Option Bool :=
  if rules.required_fields.all (fun f => hasField app f) then
    match Value.toQ? ((app.lookup "credit_score").getD (.vint 0)) with
    | none => none
    | some cs =>
      if cs < rules.minimum_credit_score then some false
      else
        match Value.toQ? ((app.lookup "loan_amount").getD (.vint 0)) with
        | none => none
        | some la =>
          if rules.maximum_loan_amount < la then some false
          else some true
  else some false

/-- `_make_decision` (decision_engine.py lines 62-86): the four-rule
decision matrix with a `denied` default. -/
def make_decision (rules : Rules) (credit_score : ℚ) (loanToIncome : LTI)
    (has_bankruptcy : Bool) : String :=
  if rules.pre_approved_min ≤ credit_score ∧ has_bankruptcy = false ∧
      loanToIncome.leQ rules.ratioMax = true then
    "pre_approved"
  else if rules.pre_approved_min ≤ credit_score ∧ has_bankruptcy = true then
    "conditional"
  else if rules.pre_approved_min ≤ credit_score ∧ loanToIncome.gtQ rules.ratioMax = true then
    "conditional"
  else if rules.conditional_min ≤ credit_score ∧ credit_score < rules.pre_approved_min ∧
      loanToIncome.leQ (1 / 2) = true then
    "conditional"
  else
    "denied"

/-- `self.messages.decisions.get(decision, self.messages.decisions.denied)`:
the template for a decision, falling back to the `denied` template; `none`
models the KeyError raised when `denied` itself is missing. -/
def lookupTemplate (msgs : Messages) (decision : String) : Option Template :=
  match msgs.decisions.lookup decision with
  | some t => some t
  | none => msgs.decisions.lookup "denied"

/-- The message_data dict built by `_format_message`, plus the optional
`loan_to_income_ratio` key that `evaluate_application` attaches afterwards
(`ratioOut = none` models the key being absent). -/
structure MessageData where
  decision : String
  title : String
  message : String
  next_steps : String
  ratioOut : Option LTI
deriving DecidableEq

/-- `_format_message` (decision_engine.py lines 88-103). -/
def format_message (msgs : Messages) (decision : String) (app : Dict) :
    Option MessageData :=
  match lookupTemplate msgs decision with
  | none => none
  | some t =>
    match Value.toQ? ((app.lookup "loan_amount").getD (.vint 0)) with
    | none => none
    | some la =>
      some ⟨decision, t.title,
        strReplace t.message "${loan_amount}" ("$" ++ formatCurrency la),
        t.next_steps, none⟩

/-- The tail of `evaluate_application` once the ratio is fixed: run the
decision matrix, format the message and attach the rounded ratio. The two
Bool components report whether the ratio was computed and whether the
decision matrix was consulted. -/
def finishEval (rules : Rules) (msgs : Messages) (app : Dict) (vcs vhb : Value)
    (lti : LTI) : Option (String × MessageData) × Bool × Bool :=
  match vcs.toQ? with
  | none => (none, true, true)
  | some cs =>
    let d := make_decision rules cs lti vhb.truthy
    ((format_message msgs d app).map
        (fun m => (d, { m with ratioOut := some lti.round2 })), true, true)

/-- `evaluate_application` (decision_engine.py lines 13-39), instrumented:
the result together with two flags recording whether the loan-to-income
ratio was computed and whether the decision matrix was consulted. The
conditional expression on line 30 evaluates the division only when
`annual_income > 0`. -/
def evaluate_application_tr (rules : Rules) (msgs : Messages) (app : Dict) :
    Option (String × MessageData) × Bool × Bool :=
  match check_compliance rules app with
  | none => (none, false, false)
  | some false =>
    ((format_message msgs "denied_compliance" app).map
        (fun m => ("denied_compliance", m)), false, false)
  | some true =>
    match app.lookup "credit_score", app.lookup "loan_amount",
        app.lookup "annual_income", app.lookup "has_bankruptcy" with
    | some vcs, some vla, some vai, some vhb =>
      match vai.toQ? with
      | none => (none, false, false)
      | some ai =>
        if 0 < ai then
          match vla.toQ? with
          | none => (none, false, false)
          | some la => finishEval rules msgs app vcs vhb (LTI.fin (la / ai))
        else
          finishEval rules msgs app vcs vhb LTI.inf
    | _, _, _, _ => (none, false, false)

/-- `evaluate_application`: the returned (decision, message_data) pair,
or `none` when the source would raise. -/
def evaluate_application (rules : Rules) (msgs : Messages) (app : Dict) :
    Option (String × MessageData) :=
  (evaluate_application_tr rules msgs app).1

/-! ### The submission ledger (app.py) -/

/-- `RESUBMISSION_DAYS = 7` (app.py line 12). -/
def RESUBMISSION_DAYS : ℤ := 7

/-- A persisted submission record (the fields the ledger operations read
or write; timestamps are rational seconds). -/
structure Submission where
  email : String
  timestamp : ℚ
  decision : String
  contact_requested : Option Bool
  contact_timestamp : Option ℚ
deriving DecidableEq

/-- `(now - submission_date).days`: the whole-day difference, floored. -/
def daysSince (now ts : ℚ) : ℤ := ⌊(now - ts) / 86400⌋

/-- The loop `for submission in reversed(submissions)` with a
case-insensitive email test: the match closest to the end of the ledger.
The recursion tries the tail (the more recent part) first. -/
def findMatch (email : String) : List Submission → Option Submission
  | [] => none
  | s :: rest =>
    match findMatch email rest with
    | some t => some t
    | none => if lowerStr s.email = lowerStr email then some s else none

/-- `check_existing_submission` (app.py lines 28-47): returns
(blocked, days_remaining, prior record). A missing submissions file is the
empty ledger. -/
def check_existing_submission (now : ℚ) (ledger : List Submission)
    (email : String) : Bool × ℤ × Option Submission :=
  match findMatch email ledger with
  | none => (false, 0, none)
  | some s =>
    let d := daysSince now s.timestamp
    if d < RESUBMISSION_DAYS then (true, RESUBMISSION_DAYS - d, some s)
    else (false, 0, some s)

/-- The scan inside `save_submission`: find the first record whose
lowercased email equals `email` and whose elapsed days are at least the
cooldown, and overwrite it in place; `none` when no such record exists.
A record matching on email but still inside the cooldown is skipped and
the scan continues (the source only breaks after an overwrite). -/
def saveGo (now : ℚ) (email : String) (data : Submission) :
    List Submission → Option (List Submission)
  | [] => none
  | s :: rest =>
    if lowerStr s.email = email ∧ RESUBMISSION_DAYS ≤ daysSince now s.timestamp then
      some (data :: rest)
    else
      (saveGo now email data rest).map (fun l => s :: l)

/-- `save_submission` (app.py lines 50-73): overwrite the first
cooldown-expired record with the same normalized email, else append. -/
def save_submission (now : ℚ) (ledger : List Submission) (data : Submission) :
    List Submission :=
  match saveGo now (lowerStr data.email) data ledger with
  | some l => l
  | none => ledger ++ [data]

/-- One submit operation as wired in `submit_application` (app.py lines
108-170): the eligibility check gates the save; a blocked check leaves the
ledger unchanged. -/
def submitStep (now : ℚ) (ledger : List Submission) (rec : Submission) :
    List Submission :=
  if (check_existing_submission now ledger rec.email).1 then ledger
  else save_submission now ledger rec

/-- A sequence of submit operations starting from the empty ledger. -/
def runSubmits (ops : List (ℚ × Submission)) : List Submission :=
  ops.foldl (fun led p => submitStep p.1 led p.2) []

/-- `pref_key` (decision_engine.py line 111): `yes` exactly when the
lowercased preference is `yes`, else `no`. -/
def contactKey (preference : String) : String :=
  if lowerStr preference = "yes" then "yes" else "no"

/-- One entry of the `contact_preference` messages table. -/
structure ContactTemplate where
  title : String
  message : String
deriving DecidableEq

/-- The `contact_preference` messages table, with its two keys. -/
structure ContactMessages where
  yes : ContactTemplate
  no : ContactTemplate
deriving DecidableEq

/-- Indexing the contact table by the computed key. -/
def ContactMessages.get (m : ContactMessages) (k : String) : ContactTemplate :=
  if k = "yes" then m.yes else m.no

/-- `get_contact_message` (decision_engine.py lines 109-117). -/
def get_contact_message (msgs : ContactMessages) (preference email : String) :
    ContactTemplate :=
  let t := msgs.get (contactKey preference)
  ⟨t.title, strReplace t.message "{email}" email⟩

/-- The mutation done by the `/contact` handler on the matched record
(app.py lines 191-192): note the case-sensitive `preference == yes` test. -/
def setContact (preference : String) (now : ℚ) (s : Submission) : Submission :=
  { s with contact_requested := some (decide (preference = "yes")),
           contact_timestamp := some now }

/-- The reversed scan of the `/contact` handler: update the match closest
to the end of the ledger, `none` when no record matches. -/
def updateLastMatch (f : Submission → Submission) (email : String) :
    List Submission → Option (List Submission)
  | [] => none
  | s :: rest =>
    match updateLastMatch f email rest with
    | some l => some (s :: l)
    | none =>
      if lowerStr s.email = lowerStr email then some (f s :: rest) else none

/-- `contact_preference` (app.py lines 177-201), restricted to its ledger
effect: update the most recent record matching the email, or leave the
ledger unchanged when none matches. -/
def contact_preference (ledger : List Submission) (preference email : String)
    (now : ℚ) : List Submission :=
  (updateLastMatch (setContact preference now) email ledger).getD ledger

/-! ### Spec-side definitions -/

/-- Modelled from the spec: the Step 3 decision matrix, written from the
spec text (rules 1-5, top to bottom, first match wins), to be compared
with `make_decision`. -/
def decisionMatrixSpec (rules : Rules) (credit_score : ℚ) (ratioVal : LTI)
    (has_bankruptcy : Bool) : String :=
  if credit_score ≥ rules.pre_approved_min ∧ ¬ has_bankruptcy = true ∧
      ratioVal.leQ rules.ratioMax = true then "pre_approved"
  else if credit_score ≥ rules.pre_approved_min ∧ has_bankruptcy = true then
    "conditional"
  else if credit_score ≥ rules.pre_approved_min ∧
      ratioVal.gtQ rules.ratioMax = true then "conditional"
  else if rules.conditional_min ≤ credit_score ∧
      credit_score < rules.pre_approved_min ∧ ratioVal.leQ (1 / 2) = true then
    "conditional"
  else "denied"

/-- Rule 1 of the matrix as a proposition. -/
def rule1Cond (rules : Rules) (cs : ℚ) (lti : LTI) (hb : Bool) : Prop :=
  rules.pre_approved_min ≤ cs ∧ hb = false ∧ lti.leQ rules.ratioMax = true

/-- Rule 2 of the matrix as a proposition. -/
def rule2Cond (rules : Rules) (cs : ℚ) (hb : Bool) : Prop :=
  rules.pre_approved_min ≤ cs ∧ hb = true

/-- Rule 3 of the matrix as a proposition. -/
def rule3Cond (rules : Rules) (cs : ℚ) (lti : LTI) : Prop :=
  rules.pre_approved_min ≤ cs ∧ lti.gtQ rules.ratioMax = true

/-- The decision matrix with rules 2 and 3 swapped. -/
def make_decision_swapped (rules : Rules) (credit_score : ℚ) (loanToIncome : LTI)
    (has_bankruptcy : Bool) : String :=
  if rules.pre_approved_min ≤ credit_score ∧ has_bankruptcy = false ∧
      loanToIncome.leQ rules.ratioMax = true then
    "pre_approved"
  else if rules.pre_approved_min ≤ credit_score ∧
      loanToIncome.gtQ rules.ratioMax = true then
    "conditional"
  else if rules.pre_approved_min ≤ credit_score ∧ has_bankruptcy = true then
    "conditional"
  else if rules.conditional_min ≤ credit_score ∧ credit_score < rules.pre_approved_min ∧
      loanToIncome.leQ (1 / 2) = true then
    "conditional"
  else
    "denied"

/-- The numeric reading of `application.get(field, 0)`, defaulting ill-typed
values to 0 (only used under a well-typedness hypothesis). -/
def getNumD (app : Dict) (f : String) : ℚ :=
  (Value.toQ? ((app.lookup f).getD (.vint 0))).getD 0

/-- The field, when present, carries a numerically usable value. -/
def numOk (app : Dict) (f : String) : Bool :=
  match app.lookup f with
  | none => true
  | some v => (Value.toQ? v).isSome

/-- The three numeric fields of an application are well-typed. -/
def WellTyped (app : Dict) : Prop :=
  numOk app "credit_score" = true ∧ numOk app "loan_amount" = true ∧
    numOk app "annual_income" = true

/-- The compliance-failure condition as the claim states it: a required
field absent or null, credit score below the minimum, or loan amount above
the maximum. -/
def failsGateSpec (rules : Rules) (app : Dict) : Prop :=
  (∃ f ∈ rules.required_fields, hasField app f = false)
  ∨ getNumD app "credit_score" < rules.minimum_credit_score
  ∨ rules.maximum_loan_amount < getNumD app "loan_amount"

/-- The record occupies the position in the ledger closest to the end among
the records matching the email (the first hit of the reversed scan). -/
def IsLatestMatch (ledger : List Submission) (email : String) (s : Submission) :
    Prop :=
  ∃ pre post, ledger = pre ++ s :: post ∧ lowerStr s.email = lowerStr email ∧
    ∀ t ∈ post, lowerStr t.email ≠ lowerStr email

/-- The record can be overwritten by `save_submission` for this payload:
same normalized email and cooldown elapsed. -/
def Overwritable (now : ℚ) (data s : Submission) : Prop :=
  lowerStr s.email = lowerStr data.email ∧
    RESUBMISSION_DAYS ≤ daysSince now s.timestamp

/-- The number of ledger records whose lowercased email is `e`. -/
def countFor (ledger : List Submission) (e : String) : ℕ :=
  (ledger.filter (fun s => decide (lowerStr s.email = e))).length

/-- The number of ledger records for `e` still inside the cooldown window. -/
def activeCount (now : ℚ) (ledger : List Submission) (e : String) : ℕ :=
  (ledger.filter (fun s =>
    decide (lowerStr s.email = e ∧ daysSince now s.timestamp < RESUBMISSION_DAYS))).length

/-! ### Concrete fixtures used by witnesses and counterexamples -/

/-- A concrete rules configuration used in witnesses. -/
def rules0 : Rules :=
  ⟨["name", "email", "credit_score", "loan_amount", "annual_income",
    "has_bankruptcy"], 300, 1000000, 740, 620, 2 / 5⟩

/-- Concrete message template for pre_approved. -/
def tPre : Template := ⟨"Approved", "Amount ${loan_amount} approved", "sign"⟩

/-- Concrete message template for conditional. -/
def tCond : Template := ⟨"Conditional", "Amount ${loan_amount} needs review", "wait"⟩

/-- Concrete message template for denied. -/
def tDen : Template := ⟨"Denied", "Amount ${loan_amount} denied", "improve"⟩

/-- Concrete message template for denied_compliance. -/
def tDC : Template := ⟨"Compliance", "Amount ${loan_amount} rejected", "see rules"⟩

/-- A concrete messages table used in witnesses. -/
def msgs0 : Messages :=
  ⟨[("pre_approved", tPre), ("conditional", tCond), ("denied", tDen),
    ("denied_compliance", tDC)]⟩

/-- A concrete contact-preference messages table. -/
def cmsgs0 : ContactMessages :=
  ⟨⟨"Will contact", "ok {email}"⟩, ⟨"No contact", "bye {email}"⟩⟩

/-- A compliant application with zero annual income. -/
def appZero : Dict :=
  [("name", .vstr "Al"), ("email", .vstr "a@b.co"), ("credit_score", .vint 780),
   ("loan_amount", .vnum 10000), ("annual_income", .vnum 0),
   ("has_bankruptcy", .vbool false)]

/-- An application missing the required `name` field. -/
def appMiss : Dict :=
  [("email", .vstr "a@b.co"), ("credit_score", .vint 780),
   ("loan_amount", .vnum 10000), ("annual_income", .vnum 50000),
   ("has_bankruptcy", .vbool false)]

/-- A concrete ledger record. -/
def subA : Submission := ⟨"a@b.co", 0, "denied", none, none⟩

/-- A later record for the same email with different letter case. -/
def subB : Submission := ⟨"A@B.co", 86400, "conditional", none, none⟩

/-- A fresh payload for the same email. -/
def subNew : Submission := ⟨"a@B.CO", 950400, "pre_approved", none, none⟩

/-! ### Helper lemmas: decision engine -/

lemma make_decision_cases (rules : Rules) (cs : ℚ) (lti : LTI) (hb : Bool) :
    make_decision rules cs lti hb = "pre_approved" ∨
    make_decision rules cs lti hb = "conditional" ∨
    make_decision rules cs lti hb = "denied" := by
  unfold make_decision
  split_ifs <;> simp

lemma make_decision_ne_dc (rules : Rules) (cs : ℚ) (lti : LTI) (hb : Bool) :
    make_decision rules cs lti hb ≠ "denied_compliance" := by
  rcases make_decision_cases rules cs lti hb with h | h | h <;> rw [h] <;> decide

lemma lookupTemplate_isSome (msgs : Messages) (d : String)
    (hden : (msgs.decisions.lookup "denied").isSome = true) :
    (lookupTemplate msgs d).isSome = true := by
  unfold lookupTemplate
  split
  · rfl
  · exact hden

lemma format_message_eq (msgs : Messages) (d : String) (app : Dict) (t : Template)
    (la : ℚ) (ht : lookupTemplate msgs d = some t)
    (hla : Value.toQ? ((app.lookup "loan_amount").getD (.vint 0)) = some la) :
    format_message msgs d app =
      some ⟨d, t.title, strReplace t.message "${loan_amount}" ("$" ++ formatCurrency la),
        t.next_steps, none⟩ := by
  unfold format_message
  rw [ht, hla]

lemma format_message_shape (msgs : Messages) (d : String) (app : Dict)
    (m : MessageData) (h : format_message msgs d app = some m) :
    m.ratioOut = none ∧ m.decision = d := by
  unfold format_message at h
  split at h
  · exact absurd h (by simp)
  · split at h
    · exact absurd h (by simp)
    · cases h
      exact ⟨rfl, rfl⟩

lemma getD_toQ (app : Dict) (f : String) (h : numOk app f = true) :
    Value.toQ? ((app.lookup f).getD (.vint 0)) = some (getNumD app f) := by
  unfold numOk at h
  unfold getNumD
  cases hl : app.lookup f with
  | none => simp [Value.toQ?]
  | some v =>
    rw [hl] at h
    obtain ⟨q, hq⟩ := Option.isSome_iff_exists.mp h
    simp [hq]

lemma check_compliance_false_iff (rules : Rules) (app : Dict)
    (hwt : WellTyped app) :
    check_compliance rules app = some false ↔ failsGateSpec rules app := by
  obtain ⟨h1, h2, _⟩ := hwt
  unfold check_compliance failsGateSpec
  simp only [getD_toQ app "credit_score" h1, getD_toQ app "loan_amount" h2]
  by_cases hall : rules.required_fields.all (fun f => hasField app f) = true
  · rw [if_pos hall]
    simp only [List.all_eq_true] at hall
    by_cases hcs : getNumD app "credit_score" < rules.minimum_credit_score
    · rw [if_pos hcs]
      exact ⟨fun _ => Or.inr (Or.inl hcs), fun _ => rfl⟩
    · rw [if_neg hcs]
      by_cases hla : rules.maximum_loan_amount < getNumD app "loan_amount"
      · rw [if_pos hla]
        exact ⟨fun _ => Or.inr (Or.inr hla), fun _ => rfl⟩
      · rw [if_neg hla]
        constructor
        · intro h
          cases h
        · rintro (⟨f, hf, hff⟩ | h | h)
          · exact absurd (hall f hf) (by simp [hff])
          · exact absurd h hcs
          · exact absurd h hla
  · rw [if_neg hall]
    refine ⟨fun _ => ?_, fun _ => rfl⟩
    left
    simp only [List.all_eq_true, not_forall] at hall
    obtain ⟨f, hf, hff⟩ := hall
    exact ⟨f, hf, by simpa using hff⟩

lemma evaluate_some_cases (rules : Rules) (msgs : Messages) (app : Dict)
    (d : String) (m : MessageData)
    (h : evaluate_application rules msgs app = some (d, m)) :
    (check_compliance rules app = some false ∧ d = "denied_compliance" ∧
      format_message msgs "denied_compliance" app = some m) ∨
    (check_compliance rules app = some true ∧
      ∃ cs lti hb m0, d = make_decision rules cs lti hb ∧
        format_message msgs d app = some m0 ∧
        m = { m0 with ratioOut := some lti.round2 }) := by
  unfold evaluate_application evaluate_application_tr finishEval at h
  split at h
  · simp at h
  case _ hc =>
    left
    simp only [Option.map_eq_some'] at h
    obtain ⟨m0, hm0, heq⟩ := h
    cases heq
    exact ⟨hc, rfl, hm0⟩
  case _ hc =>
    right
    refine ⟨hc, ?_⟩
    split at h
    · split at h
      · simp at h
      · split at h
        · split at h
          · simp at h
          · split at h
            · simp at h
            · simp only [Option.map_eq_some'] at h
              obtain ⟨m0, hm0, heq⟩ := h
              cases heq
              exact ⟨_, _, _, m0, rfl, hm0, rfl⟩
        · split at h
          · simp at h
          · simp only [Option.map_eq_some'] at h
            obtain ⟨m0, hm0, heq⟩ := h
            cases heq
            exact ⟨_, _, _, m0, rfl, hm0, rfl⟩
    · simp at h

lemma evaluate_of_fail (rules : Rules) (msgs : Messages) (app : Dict)
    (m : MessageData) (hc : check_compliance rules app = some false)
    (hm : format_message msgs "denied_compliance" app = some m) :
    evaluate_application rules msgs app = some ("denied_compliance", m) := by
  unfold evaluate_application evaluate_application_tr
  rw [hc]
  simp [hm]

lemma evaluate_tr_of_fail (rules : Rules) (msgs : Messages) (app : Dict)
    (hc : check_compliance rules app = some false) :
    (evaluate_application_tr rules msgs app).2 = (false, false) := by
  unfold evaluate_application_tr
  rw [hc]

lemma evaluate_of_pass_inf (rules : Rules) (msgs : Messages) (app : Dict)
    (vcs vla vai vhb : Value) (cs ai : ℚ) (m0 : MessageData)
    (hc : check_compliance rules app = some true)
    (l1 : app.lookup "credit_score" = some vcs)
    (l2 : app.lookup "loan_amount" = some vla)
    (l3 : app.lookup "annual_income" = some vai)
    (l4 : app.lookup "has_bankruptcy" = some vhb)
    (hai : vai.toQ? = some ai) (hai0 : ai ≤ 0)
    (hcs : vcs.toQ? = some cs)
    (hm : format_message msgs (make_decision rules cs LTI.inf vhb.truthy) app =
      some m0) :
    evaluate_application rules msgs app =
      some (make_decision rules cs LTI.inf vhb.truthy,
        { m0 with ratioOut := some LTI.inf }) := by
  unfold evaluate_application evaluate_application_tr finishEval
  rw [hc, l1, l2, l3, l4]
  simp only [hai, hcs, not_lt.mpr hai0, if_false]
  simp [hm, LTI.round2]

lemma evaluate_of_pass_fin (rules : Rules) (msgs : Messages) (app : Dict)
    (vcs vla vai vhb : Value) (cs la ai : ℚ) (m0 : MessageData)
    (hc : check_compliance rules app = some true)
    (l1 : app.lookup "credit_score" = some vcs)
    (l2 : app.lookup "loan_amount" = some vla)
    (l3 : app.lookup "annual_income" = some vai)
    (l4 : app.lookup "has_bankruptcy" = some vhb)
    (hai : vai.toQ? = some ai) (hai0 : 0 < ai)
    (hla : vla.toQ? = some la) (hcs : vcs.toQ? = some cs)
    (hm : format_message msgs
      (make_decision rules cs (LTI.fin (la / ai)) vhb.truthy) app = some m0) :
    evaluate_application rules msgs app =
      some (make_decision rules cs (LTI.fin (la / ai)) vhb.truthy,
        { m0 with ratioOut := some (LTI.round2 (LTI.fin (la / ai))) }) := by
  unfold evaluate_application evaluate_application_tr finishEval
  rw [hc, l1, l2, l3, l4]
  simp only [hai, hla, hcs, hai0, if_true]
  simp [hm]

lemma check_compliance_ne_none (rules : Rules) (app : Dict)
    (hwt : WellTyped app) :
    check_compliance rules app = some true ∨
    check_compliance rules app = some false := by
  obtain ⟨h1, h2, _⟩ := hwt
  unfold check_compliance
  simp only [getD_toQ app "credit_score" h1, getD_toQ app "loan_amount" h2]
  split_ifs <;> simp

/-! ### Helper lemmas: ledger -/

lemma findMatch_some (email : String) (l : List Submission) (t : Submission)
    (h : findMatch email l = some t) :
    t ∈ l ∧ lowerStr t.email = lowerStr email := by
  induction l with
  | nil => simp [findMatch] at h
  | cons s rest ih =>
    unfold findMatch at h
    split at h
    case _ u hu =>
      cases h
      obtain ⟨h1, h2⟩ := ih hu
      exact ⟨List.mem_cons_of_mem _ h1, h2⟩
    case _ hnone =>
      split at h
      · cases h
        exact ⟨List.mem_cons_self _ _, by assumption⟩
      · cases h

lemma findMatch_none_iff (email : String) (l : List Submission) :
    findMatch email l = none ↔
      ∀ s ∈ l, lowerStr s.email ≠ lowerStr email := by
  induction l with
  | nil => simp [findMatch]
  | cons s rest ih =>
    unfold findMatch
    constructor
    · intro h
      split at h
      · cases h
      case _ hnone =>
        split at h
        · cases h
        case _ hs =>
          intro t ht
          rcases List.mem_cons.mp ht with rfl | ht
          · exact hs
          · exact (ih.mp hnone) t ht
    · intro h
      have hrest : findMatch email rest = none :=
        ih.mpr (fun t ht => h t (List.mem_cons_of_mem _ ht))
      rw [hrest]
      simp only
      rw [if_neg (h s (List.mem_cons_self _ _))]

lemma findMatch_latest (email : String) (pre post : List Submission)
    (s : Submission) (hs : lowerStr s.email = lowerStr email)
    (hpost : ∀ t ∈ post, lowerStr t.email ≠ lowerStr email) :
    findMatch email (pre ++ s :: post) = some s := by
  induction pre with
  | nil =>
    rw [List.nil_append]
    unfold findMatch
    rw [(findMatch_none_iff email post).mpr hpost]
    simp [hs]
  | cons a pre ih =>
    rw [List.cons_append]
    unfold findMatch
    rw [ih]

lemma saveGo_none_iff (now : ℚ) (email : String) (data : Submission)
    (l : List Submission) :
    saveGo now email data l = none ↔
      ∀ s ∈ l, ¬ (lowerStr s.email = email ∧
        RESUBMISSION_DAYS ≤ daysSince now s.timestamp) := by
  induction l with
  | nil => simp [saveGo]
  | cons s rest ih =>
    unfold saveGo
    split_ifs with hcond
    · simp [hcond]
    · simp only [Option.map_eq_none', ih]
      constructor
      · intro h t ht
        rcases List.mem_cons.mp ht with rfl | ht
        · exact hcond
        · exact h t ht
      · intro h t ht
        exact h t (List.mem_cons_of_mem _ ht)

lemma saveGo_some (now : ℚ) (email : String) (data : Submission)
    (l l' : List Submission) (h : saveGo now email data l = some l') :
    ∃ pre s post, l = pre ++ s :: post ∧
      (lowerStr s.email = email ∧ RESUBMISSION_DAYS ≤ daysSince now s.timestamp) ∧
      (∀ t ∈ pre, ¬ (lowerStr t.email = email ∧
        RESUBMISSION_DAYS ≤ daysSince now t.timestamp)) ∧
      l' = pre ++ data :: post := by
  induction l generalizing l' with
  | nil => simp [saveGo] at h
  | cons s rest ih =>
    unfold saveGo at h
    split_ifs at h with hcond
    · cases h
      exact ⟨[], s, rest, rfl, hcond, by simp, rfl⟩
    · simp only [Option.map_eq_some'] at h
      obtain ⟨l0, hl0, rfl⟩ := h
      obtain ⟨pre, u, post, rfl, hu, hpre, rfl⟩ := ih l0 hl0
      refine ⟨s :: pre, u, post, rfl, hu, ?_, rfl⟩
      intro t ht
      rcases List.mem_cons.mp ht with rfl | ht
      · exact hcond
      · exact hpre t ht

lemma updateLastMatch_none_iff (f : Submission → Submission) (email : String)
    (l : List Submission) :
    updateLastMatch f email l = none ↔
      ∀ s ∈ l, lowerStr s.email ≠ lowerStr email := by
  induction l with
  | nil => simp [updateLastMatch]
  | cons s rest ih =>
    unfold updateLastMatch
    constructor
    · intro h
      split at h
      · cases h
      case _ hnone =>
        split at h
        · cases h
        case _ hs =>
          intro t ht
          rcases List.mem_cons.mp ht with rfl | ht
          · exact hs
          · exact (ih.mp hnone) t ht
    · intro h
      have hrest : updateLastMatch f email rest = none :=
        ih.mpr (fun t ht => h t (List.mem_cons_of_mem _ ht))
      rw [hrest]
      simp only
      rw [if_neg (h s (List.mem_cons_self _ _))]

lemma updateLastMatch_latest (f : Submission → Submission) (email : String)
    (pre post : List Submission) (s : Submission)
    (hs : lowerStr s.email = lowerStr email)
    (hpost : ∀ t ∈ post, lowerStr t.email ≠ lowerStr email) :
    updateLastMatch f email (pre ++ s :: post) = some (pre ++ f s :: post) := by
  induction pre with
  | nil =>
    rw [List.nil_append]
    unfold updateLastMatch
    rw [(updateLastMatch_none_iff f email post).mpr hpost]
    simp [hs]
  | cons a pre ih =>
    rw [List.cons_append]
    unfold updateLastMatch
    rw [ih]
    simp [List.cons_append]

lemma countFor_cons (s : Submission) (rest : List Submission) (e : String) :
    countFor (s :: rest) e =
      (if lowerStr s.email = e then 1 else 0) + countFor rest e := by
  unfold countFor
  rw [List.filter_cons]
  split_ifs <;> simp_all <;> omega

lemma countFor_append (l1 l2 : List Submission) (e : String) :
    countFor (l1 ++ l2) e = countFor l1 e + countFor l2 e := by
  unfold countFor
  rw [List.filter_append, List.length_append]

lemma countFor_eq_zero (l : List Submission) (e : String)
    (h : ∀ s ∈ l, lowerStr s.email ≠ e) : countFor l e = 0 := by
  unfold countFor
  rw [List.length_eq_zero, List.filter_eq_nil]
  intro a ha
  simpa using h a ha

lemma unique_match (l : List Submission) (e : String) (hc : countFor l e ≤ 1)
    (s t : Submission) (hs : s ∈ l) (hse : lowerStr s.email = e)
    (ht : t ∈ l) (hte : lowerStr t.email = e) : s = t := by
  have hsf : s ∈ l.filter (fun x => decide (lowerStr x.email = e)) :=
    List.mem_filter.mpr ⟨hs, by simp [hse]⟩
  have htf : t ∈ l.filter (fun x => decide (lowerStr x.email = e)) :=
    List.mem_filter.mpr ⟨ht, by simp [hte]⟩
  unfold countFor at hc
  rcases hfl : l.filter (fun x => decide (lowerStr x.email = e)) with _ | ⟨a, rest⟩
  · rw [hfl] at hsf
    simp at hsf
  · rw [hfl] at hsf htf hc
    rcases rest with _ | ⟨b, r⟩
    · simp only [List.mem_singleton] at hsf htf
      rw [hsf, htf]
    · simp at hc

lemma save_countFor (now : ℚ) (led : List Submission) (data : Submission)
    (l' : List Submission)
    (h : saveGo now (lowerStr data.email) data led = some l') (e : String) :
    countFor l' e = countFor led e := by
  obtain ⟨pre, s, post, rfl, hcond, _, rfl⟩ := saveGo_some _ _ _ _ _ h
  rw [countFor_append, countFor_append, countFor_cons, countFor_cons, hcond.1]

lemma submitStep_countFor (now : ℚ) (led : List Submission) (rec : Submission)
    (hInv : ∀ e, countFor led e ≤ 1) :
    ∀ e, countFor (submitStep now led rec) e ≤ 1 := by
  intro e
  unfold submitStep
  split_ifs with hb
  · exact hInv e
  · unfold save_submission
    rcases hsg : saveGo now (lowerStr rec.email) rec led with _ | l' <;>
      simp only [hsg]
    · rcases hfm : findMatch rec.email led with _ | t
      · have h0 : countFor led (lowerStr rec.email) = 0 :=
          countFor_eq_zero _ _ ((findMatch_none_iff _ _).mp hfm)
        rw [countFor_append, countFor_cons]
        by_cases he : lowerStr rec.email = e
        · rw [← he, h0]
          simp [countFor]
        · rw [if_neg he]
          unfold countFor
          simpa using hInv e
      · exfalso
        obtain ⟨htl, hmt⟩ := findMatch_some _ _ _ hfm
        unfold check_existing_submission at hb
        rw [hfm] at hb
        simp only at hb
        split_ifs at hb with hd
        · simp at hb
        · exact ((saveGo_none_iff now (lowerStr rec.email) rec led).mp hsg t htl)
            ⟨hmt, not_lt.mp hd⟩
    · rw [save_countFor now led rec l' hsg e]
      exact hInv e

lemma runSubmits_inv (ops : List (ℚ × Submission)) :
    ∀ e, countFor (runSubmits ops) e ≤ 1 := by
  suffices h : ∀ led, (∀ e, countFor led e ≤ 1) →
      ∀ e, countFor (ops.foldl (fun led p => submitStep p.1 led p.2) led) e ≤ 1 by
    exact h [] (fun e => by simp [countFor])
  induction ops with
  | nil =>
    intro led h e
    exact h e
  | cons p rest ih =>
    intro led h e
    exact ih (submitStep p.1 led p.2) (submitStep_countFor p.1 led p.2 h) e

lemma activeCount_le_countFor (now : ℚ) (led : List Submission) (e : String) :
    activeCount now led e ≤ countFor led e := by
  unfold activeCount countFor
  induction led with
  | nil => simp
  | cons s rest ih =>
    rw [List.filter_cons, List.filter_cons]
    by_cases h1 : lowerStr s.email = e ∧ daysSince now s.timestamp < RESUBMISSION_DAYS
    · rw [if_pos (by simpa using h1), if_pos (by simp [h1.1])]
      simpa using ih
    · rw [if_neg (by simpa using h1)]
      by_cases h2 : lowerStr s.email = e
      · rw [if_pos (by simp [h2])]
        simp only [List.length_cons]
        omega
      · rw [if_neg (by simpa using h2)]
        exact ih

lemma blocked_of_active (now : ℚ) (led : List Submission) (rec s : Submission)
    (hInv : ∀ e, countFor led e ≤ 1) (hs : s ∈ led)
    (hm : lowerStr s.email = lowerStr rec.email)
    (hd : daysSince now s.timestamp < RESUBMISSION_DAYS) :
    submitStep now led rec = led := by
  have hc : (check_existing_submission now led rec.email).1 = true := by
    unfold check_existing_submission
    rcases hfm : findMatch rec.email led with _ | t
    · exact absurd hm ((findMatch_none_iff _ _).mp hfm s hs)
    · obtain ⟨htl, hmt⟩ := findMatch_some _ _ _ hfm
      have hts : t = s := unique_match led (lowerStr rec.email) (hInv _) t s htl hmt hs hm
      subst hts
      simp [hd]
  unfold submitStep
  rw [if_pos hc]

lemma ratio_attached (rules : Rules) (msgs : Messages) (app : Dict)
    (vla vai : Value) (la ai : ℚ) (d : String) (m : MessageData)
    (hc : check_compliance rules app = some true)
    (l2 : app.lookup "loan_amount" = some vla) (hla : vla.toQ? = some la)
    (l3 : app.lookup "annual_income" = some vai) (hai : vai.toQ? = some ai)
    (hai0 : 0 < ai)
    (h : evaluate_application rules msgs app = some (d, m)) :
    m.ratioOut = some (LTI.round2 (LTI.fin (la / ai))) := by
  unfold evaluate_application evaluate_application_tr finishEval at h
  split at h
  case _ heq =>
    rw [hc] at heq
    cases heq
  case _ heq =>
    rw [hc] at heq
    cases heq
  case _ =>
    split at h
    case _ vcs vla2 vai2 vhb heq1 heq2 heq3 heq4 =>
      rw [l2] at heq2
      rw [l3] at heq3
      cases heq2
      cases heq3
      rcases hq : vcs.toQ? with _ | cs
      · simp [hai, if_pos hai0, hla, hq] at h
      · simp only [hai, if_pos hai0, hla, hq, Option.map_eq_some'] at h
        obtain ⟨m0, hm0, heq⟩ := h
        cases heq
        rfl
    case _ =>
      simp at h

/-! ### Claim theorems -/

/-- C1: for every rules configuration, credit score, loan-to-income ratio
and bankruptcy flag, `_make_decision` returns exactly the value of the
spec decision matrix evaluated top to bottom with first match winning,
and the returned decision is always one of pre_approved, conditional,
denied. -/
theorem C1_decision_matrix (rules : Rules) (cs : ℚ) (lti : LTI) (hb : Bool) :
    make_decision rules cs lti hb = decisionMatrixSpec rules cs lti hb ∧
    (make_decision rules cs lti hb = "pre_approved" ∨
     make_decision rules cs lti hb = "conditional" ∨
     make_decision rules cs lti hb = "denied") := by
  refine ⟨?_, make_decision_cases rules cs lti hb⟩
  unfold make_decision decisionMatrixSpec
  rcases hb with _ | _ <;> simp [ge_iff_le]

/-- C6 counterexample: with pre_approved_min 740 and max_ratio 1, the
input credit_score 800, ratio 2, has_bankruptcy true falsifies rule 1 yet
satisfies the conditions of rules 2 and 3 simultaneously, so those two
conditions are not mutually exclusive given the negation of rule 1. -/
theorem C6_counterexample :
    ¬ rule1Cond ⟨[], 300, 1000000, 740, 620, 1⟩ 800 (.fin 2) true ∧
    rule2Cond ⟨[], 300, 1000000, 740, 620, 1⟩ 800 true ∧
    rule3Cond ⟨[], 300, 1000000, 740, 620, 1⟩ 800 (.fin 2) := by
  refine ⟨fun h => absurd h.2.1 (by decide), ⟨by decide, rfl⟩, ⟨by decide, by decide⟩⟩

/-- C6 amended: rules 2 and 3 of the matrix can hold together (when the
score clears pre_approved_min, a bankruptcy is present and the ratio
exceeds max_ratio), but both produce conditional, so swapping rules 2 and
3 never changes the returned decision. -/
theorem C6_swap_irrelevant (rules : Rules) (cs : ℚ) (lti : LTI) (hb : Bool) :
    make_decision_swapped rules cs lti hb = make_decision rules cs lti hb := by
  unfold make_decision make_decision_swapped
  split_ifs <;> rfl

/-- C10: the message_data returned by evaluate_application carries the
loan_to_income_ratio key exactly when the returned decision is not
denied_compliance. -/
theorem C10_ratio_key (rules : Rules) (msgs : Messages) (app : Dict)
    (d : String) (m : MessageData)
    (h : evaluate_application rules msgs app = some (d, m)) :
    m.ratioOut.isSome = true ↔ d ≠ "denied_compliance" := by
  rcases evaluate_some_cases rules msgs app d m h with
    ⟨_, rfl, hm⟩ | ⟨_, cs, lti, hb, m0, rfl, hm0, rfl⟩
  · rw [(format_message_shape _ _ _ _ hm).1]
    simp
  · simp only [Option.isSome_some, true_iff]
    exact make_decision_ne_dc rules cs lti hb

/-- C10 witness: a concrete compliant application evaluates to conditional
with the ratio key present, and the key is present exactly because the
decision is not denied_compliance. -/
theorem C10_witness :
    evaluate_application rules0 msgs0 appZero =
      some ("conditional",
        ⟨"conditional", tCond.title,
          strReplace tCond.message "${loan_amount}" ("$" ++ formatCurrency 10000),
          tCond.next_steps, some LTI.inf⟩) ∧
    ((⟨"conditional", tCond.title,
        strReplace tCond.message "${loan_amount}" ("$" ++ formatCurrency 10000),
        tCond.next_steps, some LTI.inf⟩ : MessageData).ratioOut.isSome = true ↔
      ("conditional" : String) ≠ "denied_compliance") := by
  have hd : make_decision rules0 780 LTI.inf (Value.vbool false).truthy =
      "conditional" := by decide
  have hm : format_message msgs0 "conditional" appZero =
      some ⟨"conditional", tCond.title,
        strReplace tCond.message "${loan_amount}" ("$" ++ formatCurrency 10000),
        tCond.next_steps, none⟩ :=
    format_message_eq msgs0 "conditional" appZero tCond 10000 (by decide) (by decide)
  have hev := evaluate_of_pass_inf rules0 msgs0 appZero (.vint 780) (.vnum 10000)
    (.vnum 0) (.vbool false) 780 0 _ (by decide) rfl rfl rfl rfl rfl (by decide)
    (by decide) (by rw [hd]; exact hm)
  rw [hd] at hev
  exact ⟨hev, C10_ratio_key rules0 msgs0 appZero _ _ hev⟩

/-- C7: a compliant, well-typed application with annual income at most 0
does not crash the engine: the ratio is treated as positive infinity and a
matrix decision is still returned with that ratio attached. -/
theorem C7_income_guard (rules : Rules) (msgs : Messages) (app : Dict)
    (vcs vla vai vhb : Value) (cs la ai : ℚ)
    (hc : check_compliance rules app = some true)
    (l1 : app.lookup "credit_score" = some vcs)
    (l2 : app.lookup "loan_amount" = some vla)
    (l3 : app.lookup "annual_income" = some vai)
    (l4 : app.lookup "has_bankruptcy" = some vhb)
    (hcs : vcs.toQ? = some cs)
    (hla : vla.toQ? = some la)
    (hai : vai.toQ? = some ai) (hai0 : ai ≤ 0)
    (hden : (msgs.decisions.lookup "denied").isSome = true) :
    ∃ m, evaluate_application rules msgs app =
        some (make_decision rules cs LTI.inf vhb.truthy, m) ∧
      m.ratioOut = some LTI.inf := by
  obtain ⟨t, ht⟩ := Option.isSome_iff_exists.mp
    (lookupTemplate_isSome msgs (make_decision rules cs LTI.inf vhb.truthy) hden)
  have hla2 : Value.toQ? ((app.lookup "loan_amount").getD (.vint 0)) = some la := by
    rw [l2]
    exact hla
  have hm := format_message_eq msgs (make_decision rules cs LTI.inf vhb.truthy)
    app t la ht hla2
  exact ⟨_, evaluate_of_pass_inf rules msgs app vcs vla vai vhb cs ai _ hc
    l1 l2 l3 l4 hai hai0 hcs hm, rfl⟩

/-- C7 witness: the concrete application with annual_income 0 passes the
gate and still receives a matrix decision, with ratio infinity. -/
theorem C7_witness :
    ∃ m, evaluate_application rules0 msgs0 appZero =
        some (make_decision rules0 780 LTI.inf (Value.vbool false).truthy, m) ∧
      m.ratioOut = some LTI.inf :=
  C7_income_guard rules0 msgs0 appZero (.vint 780) (.vnum 10000) (.vnum 0)
    (.vbool false) 780 10000 0 (by decide) rfl rfl rfl rfl (by decide) (by decide)
    rfl (by decide) (by decide)

/-- C2: for a well-typed application, evaluate_application returns decision
denied_compliance exactly when a configured required field is absent or
null, the credit score is below the minimum, or the loan amount exceeds
the maximum; and on any such failure the short-circuit holds: neither the
loan-to-income ratio nor the decision matrix is reached. -/
theorem C2_compliance_gate (rules : Rules) (msgs : Messages) (app : Dict)
    (hwt : WellTyped app)
    (hden : (msgs.decisions.lookup "denied").isSome = true) :
    ((∃ m, evaluate_application rules msgs app = some ("denied_compliance", m)) ↔
      failsGateSpec rules app)
    ∧ (failsGateSpec rules app →
      (evaluate_application_tr rules msgs app).2 = (false, false)) := by
  have hfi := check_compliance_false_iff rules app hwt
  constructor
  · constructor
    · rintro ⟨m, hm⟩
      rcases evaluate_some_cases rules msgs app _ m hm with
        ⟨hc, _, _⟩ | ⟨hc, cs, lti, hb, m0, hd, _, _⟩
      · exact hfi.mp hc
      · exact absurd hd.symm (make_decision_ne_dc rules cs lti hb)
    · intro hf
      obtain ⟨t, ht⟩ := Option.isSome_iff_exists.mp
        (lookupTemplate_isSome msgs "denied_compliance" hden)
      exact ⟨_, evaluate_of_fail rules msgs app _ (hfi.mpr hf)
        (format_message_eq msgs "denied_compliance" app t _ ht
          (getD_toQ app "loan_amount" hwt.2.1))⟩
  · intro hf
    exact evaluate_tr_of_fail rules msgs app (hfi.mpr hf)

/-- C2 witness: the concrete application missing its required name field
is rejected as denied_compliance, satisfies the failure condition, and the
instrumented evaluator records that neither the ratio nor the matrix was
reached. -/
theorem C2_witness :
    (∃ m, evaluate_application rules0 msgs0 appMiss =
      some ("denied_compliance", m)) ∧
    failsGateSpec rules0 appMiss ∧
    (evaluate_application_tr rules0 msgs0 appMiss).2 = (false, false) := by
  have h := C2_compliance_gate rules0 msgs0 appMiss
    ⟨by decide, by decide, by decide⟩ (by decide)
  have hf : failsGateSpec rules0 appMiss :=
    Or.inl ⟨"name", by decide, by decide⟩
  exact ⟨h.1.mpr hf, hf, h.2 hf⟩

/-- C8: message_data is built from the decision template (falling back to
the denied template for unknown keys), with the loan amount substituted
for the placeholder as a currency string with exactly two decimal places
and thousands separators; and for compliant applications the computed
ratio, rounded to two decimal places, is attached. -/
theorem C8_message_format (rules : Rules) (msgs : Messages) (app : Dict)
    (d : String) (la : ℚ)
    (hla : Value.toQ? ((app.lookup "loan_amount").getD (.vint 0)) = some la) :
    (∀ t, lookupTemplate msgs d = some t →
      format_message msgs d app =
        some ⟨d, t.title,
          strReplace t.message "${loan_amount}" ("$" ++ formatCurrency la),
          t.next_steps, none⟩)
    ∧ (msgs.decisions.lookup d = none →
      lookupTemplate msgs d = msgs.decisions.lookup "denied")
    ∧ (∀ n : ℕ, n < 100 → (pad2 n).length = 2)
    ∧ formatCurrency (1234567891 / 1000 : ℚ) = "1,234,567.89"
    ∧ (∀ vla vai la2 ai d2 m2,
        check_compliance rules app = some true →
        app.lookup "loan_amount" = some vla → Value.toQ? vla = some la2 →
        app.lookup "annual_income" = some vai → Value.toQ? vai = some ai →
        0 < ai →
        evaluate_application rules msgs app = some (d2, m2) →
        m2.ratioOut = some (LTI.round2 (LTI.fin (la2 / ai)))) := by
  refine ⟨?_, ?_, ?_, ?_, ?_⟩
  · intro t ht
    exact format_message_eq msgs d app t la ht hla
  · intro hnone
    unfold lookupTemplate
    rw [hnone]
  · intro n hn
    interval_cases n <;> rfl
  · norm_num [formatCurrency, round_eq]
    rfl
  · intro vla vai la2 ai d2 m2 hc hl2 hla2 hl3 hai hai0 hev
    exact ratio_attached rules msgs app vla vai la2 ai d2 m2 hc hl2 hla2 hl3
      hai hai0 hev

/-- C8 witness: the pre_approved template of the concrete messages table
is instantiated with the placeholder replaced by the formatted amount. -/
theorem C8_witness :
    format_message msgs0 "pre_approved" appMiss =
      some ⟨"pre_approved", tPre.title,
        strReplace tPre.message "${loan_amount}" ("$" ++ formatCurrency 10000),
        tPre.next_steps, none⟩ :=
  (C8_message_format rules0 msgs0 appMiss "pre_approved" 10000 (by decide)).1
    tPre (by decide)

/-- C3: check_existing_submission takes the most recent record matching
the email case-insensitively; with no match it reports (not blocked, 0, no
record); with a match at floored whole-day difference d it reports
(blocked, 7 - d, record) when d < 7 and (not blocked, 0, record) when
d ≥ 7; and the day difference is floored, so 6 days 23 hours gives 6. -/
theorem C3_check_existing (now : ℚ) (ledger : List Submission) (email : String) :
    ((∀ s ∈ ledger, lowerStr s.email ≠ lowerStr email) →
      check_existing_submission now ledger email = (false, 0, none))
    ∧ (∀ s, IsLatestMatch ledger email s →
        (daysSince now s.timestamp < RESUBMISSION_DAYS →
          check_existing_submission now ledger email =
            (true, RESUBMISSION_DAYS - daysSince now s.timestamp, some s))
        ∧ (RESUBMISSION_DAYS ≤ daysSince now s.timestamp →
          check_existing_submission now ledger email = (false, 0, some s)))
    ∧ daysSince (6 * 86400 + 23 * 3600) 0 = 6 := by
  refine ⟨?_, ?_, by norm_num [daysSince, Int.floor_eq_iff]⟩
  · intro h
    unfold check_existing_submission
    rw [(findMatch_none_iff email ledger).mpr h]
  · rintro s ⟨pre, post, rfl, hm, hpost⟩
    have hf := findMatch_latest email pre post s hm hpost
    constructor
    · intro hd
      unfold check_existing_submission
      rw [hf]
      simp [hd]
    · intro hd
      unfold check_existing_submission
      rw [hf]
      simp [not_lt.mpr hd]

/-- C3 witness: in a two-record ledger for the same email in different
letter case, the later record is the relevant one and one elapsed day
yields blocked with six days remaining. -/
theorem C3_witness :
    check_existing_submission 172800 [subA, subB] "a@B.CO" =
      (true, RESUBMISSION_DAYS - daysSince 172800 subB.timestamp, some subB) :=
  ((C3_check_existing 172800 [subA, subB] "a@B.CO").2.1 subB
    ⟨[subA], [], rfl, by decide, by simp⟩).1
    (by norm_num [daysSince, subB, Int.floor_eq_iff, RESUBMISSION_DAYS])

/-- C5: save_submission either overwrites, in place, the first record with
the same normalized email whose cooldown has elapsed, leaving every other
record unchanged, or, when no such record exists, appends the payload at
the end leaving all records unchanged. -/
theorem C5_save_frame (now : ℚ) (led : List Submission) (data : Submission) :
    ((∃ s ∈ led, Overwritable now data s) →
      ∃ pre s post, led = pre ++ s :: post ∧ Overwritable now data s ∧
        (∀ t ∈ pre, ¬ Overwritable now data t) ∧
        save_submission now led data = pre ++ data :: post)
    ∧ ((∀ s ∈ led, ¬ Overwritable now data s) →
      save_submission now led data = led ++ [data]) := by
  constructor
  · rintro ⟨s, hs, hov⟩
    rcases hsg : saveGo now (lowerStr data.email) data led with _ | l'
    · exact absurd hov
        ((saveGo_none_iff now (lowerStr data.email) data led).mp hsg s hs)
    · obtain ⟨pre, u, post, hled, hu, hpre, hl'⟩ := saveGo_some _ _ _ _ _ hsg
      refine ⟨pre, u, post, hled, hu, hpre, ?_⟩
      unfold save_submission
      simp only [hsg]
      exact hl'
  · intro h
    have hsg : saveGo now (lowerStr data.email) data led = none :=
      (saveGo_none_iff _ _ _ _).mpr (fun s hs => h s hs)
    unfold save_submission
    rw [hsg]

/-- C5 witness: a single expired record for the same email is overwritten
in place by the new payload. -/
theorem C5_witness :
    ∃ pre s post, ([subA] : List Submission) = pre ++ s :: post ∧
      Overwritable 950400 subNew s ∧
      (∀ t ∈ pre, ¬ Overwritable 950400 subNew t) ∧
      save_submission 950400 [subA] subNew = pre ++ subNew :: post :=
  (C5_save_frame 950400 [subA] subNew).1
    ⟨subA, by simp,
      ⟨by decide, by norm_num [daysSince, subA, Int.floor_eq_iff, RESUBMISSION_DAYS]⟩⟩

/-- C9 counterexample: for the preference string Yes, the handler stores
contact_requested = false (its comparison is case-sensitive) while the
confirmation message uses the yes template (its comparison lowercases), so
the stored boolean and the confirmation template disagree. -/
theorem C9_counterexample :
    ¬ ((contact_preference [⟨"a@b.co", 0, "denied", none, none⟩] "Yes"
          "a@b.co" 5 =
        [⟨"a@b.co", 0, "denied", some true, some 5⟩]) ↔
      contactKey "Yes" = "yes") := by
  decide

/-- C9 amended: for preference strings that are not mixed-case variants of
yes (that is, whenever lowercasing p to yes implies p is literally yes),
the handler updates the most recent matching record with
contact_requested = (p == yes), and that stored boolean is true exactly
when the confirmation message is built from the yes template. -/
theorem C9_contact_consistency (msgs : ContactMessages) (p email : String)
    (now : ℚ) (pre post : List Submission) (s : Submission)
    (hp : lowerStr p = "yes" → p = "yes")
    (hs : lowerStr s.email = lowerStr email)
    (hpost : ∀ t ∈ post, lowerStr t.email ≠ lowerStr email) :
    contact_preference (pre ++ s :: post) p email now =
      pre ++ setContact p now s :: post
    ∧ ((setContact p now s).contact_requested = some true ↔
      contactKey p = "yes")
    ∧ get_contact_message msgs p email =
      ⟨(msgs.get (contactKey p)).title,
        strReplace (msgs.get (contactKey p)).message "{email}" email⟩ := by
  refine ⟨?_, ?_, rfl⟩
  · unfold contact_preference
    rw [updateLastMatch_latest (setContact p now) email pre post s hs hpost]
    rfl
  · unfold setContact contactKey
    by_cases hpy : p = "yes"
    · subst hpy
      exact ⟨fun _ => by decide, fun _ => rfl⟩
    · rw [if_neg (fun hl => hpy (hp hl))]
      simp [hpy]

/-- C9 witness: for the unambiguous preference no, the record update and
the message template agree. -/
theorem C9_witness :
    contact_preference ([] ++ subA :: []) "no" "a@b.co" 5 =
      [] ++ setContact "no" 5 subA :: []
    ∧ ((setContact "no" 5 subA).contact_requested = some true ↔
      contactKey "no" = "yes")
    ∧ get_contact_message cmsgs0 "no" "a@b.co" =
      ⟨(cmsgs0.get (contactKey "no")).title,
        strReplace (cmsgs0.get (contactKey "no")).message "{email}" "a@b.co"⟩ :=
  C9_contact_consistency cmsgs0 "no" "a@b.co" 5 [] [] subA (by decide)
    (by decide) (by simp)

/-- C4: starting from the empty ledger, any sequence of gated submits
leaves at most one ledger record per normalized email, hence at most one
inside the cooldown window, and a further submission for an email that has
a record inside the window leaves the ledger unchanged (no entry added). -/
theorem C4_cooldown_invariant (ops : List (ℚ × Submission)) :
    (∀ e, countFor (runSubmits ops) e ≤ 1)
    ∧ (∀ now e, activeCount now (runSubmits ops) e ≤ 1)
    ∧ (∀ now rec s, s ∈ runSubmits ops →
        lowerStr s.email = lowerStr rec.email →
        daysSince now s.timestamp < RESUBMISSION_DAYS →
        submitStep now (runSubmits ops) rec = runSubmits ops) := by
  refine ⟨runSubmits_inv ops, ?_, ?_⟩
  · intro now e
    exact le_trans (activeCount_le_countFor now _ e) (runSubmits_inv ops e)
  · intro now rec s hs hm hd
    exact blocked_of_active now _ rec s (runSubmits_inv ops) hs hm hd

/-- C4 witness: after one submit, a second submit for the same email one
day later changes nothing. -/
theorem C4_witness :
    countFor (runSubmits [(0, subA)]) "a@b.co" ≤ 1 ∧
    submitStep 86400 (runSubmits [(0, subA)]) subB = runSubmits [(0, subA)] := by
  have h := C4_cooldown_invariant [(0, subA)]
  exact ⟨h.1 "a@b.co", h.2.2 86400 subB subA (by decide) (by decide)
    (by norm_num [daysSince, subA, Int.floor_eq_iff, RESUBMISSION_DAYS])⟩

end LoanApp
